import Mathlib

/-!
Verification of the attendance-synchronization and reporting logic of the
SMPN 3 Pacet prayer-attendance application.

The embedding follows the TypeScript source:
* `src/types.ts` — the `Student` and `AttendanceRecord` shapes;
* `src/services/storageService.ts` (and the revision in `src/unnamed/part_008`)
  — `getStudents`, `getAttendance`, `addAttendanceRecordToSheet`,
  `deleteAttendanceRecord`, `updateAttendanceStatus`;
* `src/components/Reports.tsx` — the `monthlyStats`, `semesterData` and
  `weeklyMatrixData` aggregators.

Modelling conventions:
* the browser `localStorage` entry for a key is an `Option (List _)`:
  `none` when the key is absent, `some l` for a stored JSON array `l`
  (JSON round-trips, so parsed lists stand in for the serialized strings);
* environment reads (today's date string, `crypto.randomUUID()`,
  `Date.now()`) are passed as explicit parameters;
* a network fetch is an explicit `FetchOutcome` parameter: raising or
  timing out, returning a non-array JSON value, or returning an array;
* a fire-and-forget remote write is recorded as a `Bool` flag in the
  result (the client never reads the response);
* the JavaScript `Array.prototype.sort(cmp)` call is modelled by the
  structural insertion sort `sortLe` below, with `le a b` meaning
  `cmp(a, b) <= 0`;
* `String.prototype.localeCompare` is modelled as code-point
  lexicographic comparison (`nameLe`), and `String.prototype.startsWith`
  as character-list prefix (`strStartsWith`).
-/

/-- Data model of `Student` (src/types.ts). -/
structure Student where
  id : String
  name : String
  className : String
  gender : Option String := none
  parentPhone : Option String := none
deriving DecidableEq

/-- Data model of `AttendanceRecord` (src/types.ts).  The `status` field is
optional in the source (`status?: 'PRESENT' | 'HAID'`) and the stored JSON is
not validated, so it is modelled as an arbitrary optional string. -/
structure AttendanceRecord where
  id : String
  studentId : String
  studentName : String
  className : String
  date : String
  timestamp : Int
  operatorName : Option String := none
  status : Option String := none
deriving DecidableEq

/-- Outcome of a remote fetch followed by `response.json()`:
the call raised or timed out, produced a non-array JSON value,
or produced a JSON array. -/
inductive FetchOutcome (α : Type) where
  | failure
  | notArray
  | arr (data : List α)

/-- Code-point lexicographic `≤` on character lists; together with `nameLe`
this models the `localeCompare(...) <= 0` ordering used by the sort
comparators in `Reports.tsx`. -/
def lexLe : List Char → List Char → Bool
  | [], _ => true
  | _ :: _, [] => false
  | a :: as, b :: bs =>
      if a.toNat < b.toNat then true
      else if b.toNat < a.toNat then false
      else lexLe as bs

/-- Model of `a.localeCompare(b) <= 0` as code-point comparison. -/
def nameLe (a b : String) : Bool := lexLe a.data b.data

/-- Model of the JavaScript `s.startsWith(p)` test. -/
def strStartsWith (s p : String) : Bool := p.data.isPrefixOf s.data

/-- Insert an element into a sorted list, in front of the first element it
compares `le` to; building block of `sortLe`. -/
def insertLe (le : α → α → Bool) (a : α) : List α → List α
  | [] => [a]
  | b :: l => if le a b then a :: b :: l else b :: insertLe le a l

/-- Model of `Array.prototype.sort` with comparator `cmp`, where
`le a b` means `cmp(a, b) <= 0`: a structural insertion sort. -/
def sortLe (le : α → α → Bool) (l : List α) : List α :=
  l.foldr (insertLe le) []

/-- The comparator `(a, b) => b.timestamp - a.timestamp` of
`storageService.ts` line 85: descending by timestamp. -/
def tsDesc (a b : AttendanceRecord) : Bool :=
  decide (b.timestamp ≤ a.timestamp)

/-- The comparator shape `(a, b) => b.total - a.total || nameA.localeCompare(nameB)`
shared by `monthlyStats` and `semesterData` in `Reports.tsx`: descending by a
numeric total, ties broken by name ascending. -/
def rankLE (t : α → Nat) (n : α → String) (a b : α) : Bool :=
  decide (t b < t a) || (decide (t b = t a) && nameLe (n a) (n b))

/-- Model of the JavaScript `Map.prototype.set` keyed by `id` on an
insertion-ordered list of records: an existing entry with the same id is
replaced in place, otherwise the record is appended
(`recordMap.set(r.id, r)`, storageService.ts line 74). -/
def mapSet (m : List AttendanceRecord) (r : AttendanceRecord) : List AttendanceRecord :=
  if m.any (fun x => x.id == r.id) then
    m.map (fun x => if x.id == r.id then r else x)
  else m ++ [r]

/-- Model of `if (!recordMap.has(r.id)) recordMap.set(r.id, r)`
(storageService.ts lines 77-81): insert only when the id is absent. -/
def mapSetIfAbsent (m : List AttendanceRecord) (r : AttendanceRecord) : List AttendanceRecord :=
  if m.any (fun x => x.id == r.id) then m else m ++ [r]

/-- The merge of `getAttendance` (storageService.ts lines 71-83): insert every
cloud record into an id-keyed map, then every local record whose id is not
already present; the result is the map's values in insertion order. -/
def mergeRecords (cloudRecords localRecords : List AttendanceRecord) : List AttendanceRecord :=
  localRecords.foldl mapSetIfAbsent (cloudRecords.foldl mapSet [])

/-- `getAttendance` (storageService.ts lines 61-94).  Input: the fetch
outcome and the stored attendance entry; output: the returned record list and
the new stored entry.  On an array response the cloud and local records are
merged by id, sorted descending by timestamp, persisted and returned; on any
failure or non-array response the parsed local records are returned and the
store is untouched. -/
def getAttendance (fetch : FetchOutcome AttendanceRecord)
    (store : Option (List AttendanceRecord)) :
    List AttendanceRecord × Option (List AttendanceRecord) :=
  let localRecords := store.getD []
  match fetch with
  | .arr cloudRecords =>
      let mergedRecords := sortLe tsDesc (mergeRecords cloudRecords localRecords)
      (mergedRecords, some mergedRecords)
  | _ => (localRecords, store)

/-- `getStudents` (storageService.ts lines 23-43).  `initialStudents` stands
for the `INITIAL_STUDENTS` constant used when the key is absent.  A non-empty
array response replaces the stored roster wholesale; anything else returns the
local data and leaves the store untouched. -/
def getStudents (initialStudents : List Student) (fetch : FetchOutcome Student)
    (store : Option (List Student)) : List Student × Option (List Student) :=
  let localData := store.getD initialStudents
  match fetch with
  | .arr cloudData =>
      if cloudData.length > 0 then (cloudData, some cloudData)
      else (localData, store)
  | _ => (localData, store)

/-- Result shape of `addAttendanceRecordToSheet`:
`{ success, message, record? }`. -/
structure AddResult where
  success : Bool
  message : String
  record : Option AttendanceRecord
deriving DecidableEq

/-- `addAttendanceRecordToSheet` (storageService.ts lines 96-143).
`today` is the `YYYY-MM-DD` string computed from the local clock, `freshId`
the `crypto.randomUUID()` value and `nowTs` the `Date.now()` value, all passed
explicitly.  Returns the result object, the new stored attendance entry, and
whether a remote write was dispatched.  A record with the same `studentId`
and `date` already in the cache makes the call fail with a duplicate message
and perform no write at all. -/
def addAttendanceRecordToSheet (student : Student) (operatorName : String)
    (status : String) (today : String) (freshId : String) (nowTs : Int)
    (store : Option (List AttendanceRecord)) :
    AddResult × Option (List AttendanceRecord) × Bool :=
  let cachedRecords := store.getD []
  if cachedRecords.any (fun r => r.studentId == student.id && r.date == today) then
    ({ success := false, message := student.name ++ " sudah absen hari ini.",
       record := none }, store, false)
  else
    let newRecord : AttendanceRecord :=
      { id := freshId, studentId := student.id, studentName := student.name,
        className := student.className, date := today, timestamp := nowTs,
        operatorName := some operatorName, status := some status }
    ({ success := true, message := student.name ++ " berhasil ABSEN.",
       record := some newRecord }, some (newRecord :: cachedRecords), true)

/-- `deleteAttendanceRecord` (src/unnamed/part_008 lines 81-99): with no
stored entry return `false`; otherwise remove every record with the given id,
persist, dispatch the remote delete and return `true`. -/
def deleteAttendanceRecord (id : String) (store : Option (List AttendanceRecord)) :
    Bool × Option (List AttendanceRecord) :=
  match store with
  | none => (false, none)
  | some records => (true, some (records.filter (fun r => r.id != id)))

/-- `updateAttendanceStatus` (src/unnamed/part_008 lines 101-122): with no
stored entry return `false`; locate the first record with the given id via
`findIndex`; if absent return `false` without writing, otherwise set that
record's `status` field, persist and return `true`. -/
def updateAttendanceStatus (id : String) (newStatus : String)
    (store : Option (List AttendanceRecord)) :
    Bool × Option (List AttendanceRecord) :=
  match store with
  | none => (false, none)
  | some records =>
      if h : records.findIdx (fun r => r.id == id) < records.length then
        (true, some (records.set (records.findIdx (fun r => r.id == id))
          { records.get ⟨records.findIdx (fun r => r.id == id), h⟩ with
              status := some newStatus }))
      else (false, some records)

/-- One row of the monthly history table (`monthlyStats` in Reports.tsx):
the student spread together with `presentCount`, `haidCount` and `total`. -/
structure MonthlyEntry where
  student : Student
  presentCount : Nat
  haidCount : Nat
  total : Nat
deriving DecidableEq

/-- The per-student body of `monthlyStats` (Reports.tsx lines 148-153):
filter the records of the student that fall in `historyMonth`
(`r.date.startsWith(historyMonth)`), count those with status `PRESENT` and
those with status `HAID`. -/
def monthlyEntryFor (records : List AttendanceRecord) (historyMonth : String)
    (student : Student) : MonthlyEntry :=
  let monthRecords := records.filter
    (fun r => r.studentId == student.id && strStartsWith r.date historyMonth)
  let presentCount := (monthRecords.filter (fun r => r.status == some "PRESENT")).length
  let haidCount := (monthRecords.filter (fun r => r.status == some "HAID")).length
  { student := student, presentCount := presentCount, haidCount := haidCount,
    total := presentCount + haidCount }

/-- Sort order of `monthlyStats`: `(a, b) => b.total - a.total || a.name.localeCompare(b.name)`. -/
def monthlyLE : MonthlyEntry → MonthlyEntry → Bool :=
  rankLE (fun e => e.total) (fun e => e.student.name)

/-- `monthlyStats` (Reports.tsx lines 144-155): restrict the roster to the
`viewOnlyStudent` if set, else apply the class filter unless it is `"ALL"`;
produce one entry per target student and sort by total descending, ties by
name ascending. -/
def monthlyStats (students : List Student) (records : List AttendanceRecord)
    (historyMonth : String) (historyFilterClass : String)
    (viewOnlyStudent : Option Student) : List MonthlyEntry :=
  let targetStudents :=
    match viewOnlyStudent with
    | some s => [s]
    | none =>
        if historyFilterClass == "ALL" then students
        else students.filter (fun s => s.className == historyFilterClass)
  sortLe monthlyLE (targetStudents.map (monthlyEntryFor records historyMonth))

/-- One value of the `counts` dictionary built by `semesterData`
(Reports.tsx lines 159-172). -/
structure SemEntry where
  student : Student
  present : Nat
  haid : Nat
  total : Nat
deriving DecidableEq

/-- The initialization `counts[s.id] = { student: s, present: 0, haid: 0, total: 0 }`
(Reports.tsx lines 162-164) on an insertion-ordered list keyed by student id:
an existing slot with the same id is overwritten in place. -/
def semInsertInit (cs : List SemEntry) (s : Student) : List SemEntry :=
  if cs.any (fun e => e.student.id == s.id) then
    cs.map (fun e => if e.student.id == s.id then
      { student := s, present := 0, haid := 0, total := 0 } else e)
  else cs ++ [{ student := s, present := 0, haid := 0, total := 0 }]

/-- The record step of `semesterData` (Reports.tsx lines 166-172) on one
dictionary slot: when the slot's key equals `r.studentId`, bump `haid` if the
status is `HAID` and `present` otherwise, then recompute `total`. -/
def semBump (r : AttendanceRecord) (e : SemEntry) : SemEntry :=
  if e.student.id == r.studentId then
    let e2 := if r.status == some "HAID" then { e with haid := e.haid + 1 }
              else { e with present := e.present + 1 }
    { e2 with total := e2.present + e2.haid }
  else e

/-- The record step applied to the whole dictionary
(`if (counts[r.studentId]) { ... }`): only the slot keyed by `r.studentId`
changes. -/
def semApply (cs : List SemEntry) (r : AttendanceRecord) : List SemEntry :=
  cs.map (semBump r)

/-- Sort order of `semesterData`:
`(a, b) => b.total - a.total || a.student.name.localeCompare(b.student.name)`. -/
def semLE : SemEntry → SemEntry → Bool :=
  rankLE (fun e => e.total) (fun e => e.student.name)

/-- `semesterData` (Reports.tsx lines 158-177): initialize one dictionary
slot per student, fold every record through `semBump`, drop the slots with
`total = 0` and sort by total descending, ties by name ascending. -/
def semesterData (students : List Student) (records : List AttendanceRecord) :
    List SemEntry :=
  let counts := records.foldl semApply (students.foldl semInsertInit [])
  sortLe semLE (counts.filter (fun e => decide (0 < e.total)))

/-- One cell of the range-matrix row (`attendanceMap` entries in
`weeklyMatrixData`, Reports.tsx lines 128-136). -/
structure MatrixCell where
  date : String
  isPresent : Bool
  isHaid : Bool
  recordId : Option String
deriving DecidableEq

/-- One row of the range matrix (`weeklyMatrixData.matrix`). -/
structure MatrixRow where
  student : Student
  attendanceMap : List MatrixCell
  presentCount : Nat
  haidCount : Nat
deriving DecidableEq

/-- The per-student body of `weeklyMatrixData` (Reports.tsx lines 126-137).
`daysInRange` is the list of `yyyy-MM-dd` strings produced by the date-fns
`eachDayOfInterval`/`format` calls, passed here explicitly.  For each day the
first record of the student on that date is looked up; a found record bumps
`haidCount` when its status is `HAID` and `presentCount` otherwise. -/
def matrixRowFor (records : List AttendanceRecord) (daysInRange : List String)
    (student : Student) : MatrixRow :=
  let step := fun (acc : List MatrixCell × Nat × Nat) (dateStr : String) =>
    match records.find? (fun r => r.studentId == student.id && r.date == dateStr) with
    | some record =>
        (acc.1 ++ [{ date := dateStr, isPresent := true,
                     isHaid := record.status == some "HAID",
                     recordId := some record.id }],
         (if record.status == some "HAID" then acc.2.1 else acc.2.1 + 1),
         (if record.status == some "HAID" then acc.2.2 + 1 else acc.2.2))
    | none =>
        (acc.1 ++ [{ date := dateStr, isPresent := false, isHaid := false,
                     recordId := none }], acc.2.1, acc.2.2)
  let out := daysInRange.foldl step ([], 0, 0)
  { student := student, attendanceMap := out.1,
    presentCount := out.2.1, haidCount := out.2.2 }

theorem insertLe_perm (le : α → α → Bool) (a : α) (l : List α) :
    (insertLe le a l).Perm (a :: l) := by
  induction l with
  | nil => simp [insertLe]
  | cons b l ih =>
      by_cases h : le a b = true
      · simp [insertLe, h]
      · have h' : le a b = false := by simpa using h
        have heq : insertLe le a (b :: l) = b :: insertLe le a l := by
          simp [insertLe, h']
        rw [heq]
        exact (List.Perm.cons b ih).trans (List.Perm.swap a b l)

theorem sortLe_perm (le : α → α → Bool) (l : List α) : (sortLe le l).Perm l := by
  induction l with
  | nil => simp [sortLe]
  | cons a l ih =>
      have h1 : sortLe le (a :: l) = insertLe le a (sortLe le l) := rfl
      rw [h1]
      exact (insertLe_perm le a (sortLe le l)).trans (List.Perm.cons a ih)

theorem mem_sortLe (le : α → α → Bool) (l : List α) (x : α) :
    x ∈ sortLe le l ↔ x ∈ l :=
  (sortLe_perm le l).mem_iff

theorem pairwise_insertLe (le : α → α → Bool)
    (htot : ∀ a b, le a b = true ∨ le b a = true)
    (htr : ∀ a b c, le a b = true → le b c = true → le a c = true)
    (a : α) (l : List α) (hl : l.Pairwise (fun x y => le x y = true)) :
    (insertLe le a l).Pairwise (fun x y => le x y = true) := by
  induction l with
  | nil => simp [insertLe]
  | cons b l ih =>
      cases hl with
      | cons hb hl =>
        by_cases h : le a b = true
        · have heq : insertLe le a (b :: l) = a :: b :: l := by
            simp [insertLe, h]
          rw [heq]
          refine List.Pairwise.cons ?_ (List.Pairwise.cons hb hl)
          intro x hx
          rcases List.mem_cons.mp hx with rfl | hx
          · exact h
          · exact htr a b x h (hb x hx)
        · have h' : le a b = false := by simpa using h
          have heq : insertLe le a (b :: l) = b :: insertLe le a l := by
            simp [insertLe, h']
          rw [heq]
          have hba : le b a = true := (htot a b).resolve_left h
          refine List.Pairwise.cons ?_ (ih hl)
          intro x hx
          rcases List.mem_cons.mp ((insertLe_perm le a l).mem_iff.mp hx) with rfl | hx
          · exact hba
          · exact hb x hx

theorem pairwise_sortLe (le : α → α → Bool)
    (htot : ∀ a b, le a b = true ∨ le b a = true)
    (htr : ∀ a b c, le a b = true → le b c = true → le a c = true)
    (l : List α) : (sortLe le l).Pairwise (fun x y => le x y = true) := by
  induction l with
  | nil => simp [sortLe]
  | cons a l ih => exact pairwise_insertLe le htot htr a (sortLe le l) ih

theorem tsDesc_total (a b : AttendanceRecord) :
    tsDesc a b = true ∨ tsDesc b a = true := by
  unfold tsDesc
  rcases Int.le_total a.timestamp b.timestamp with h | h
  · right; simpa using h
  · left; simpa using h

theorem tsDesc_trans (a b c : AttendanceRecord) :
    tsDesc a b = true → tsDesc b c = true → tsDesc a c = true := by
  unfold tsDesc
  simp only [decide_eq_true_eq]
  omega

theorem lexLe_total (as bs : List Char) : lexLe as bs = true ∨ lexLe bs as = true := by
  induction as generalizing bs with
  | nil => left; rfl
  | cons a as ih =>
      cases bs with
      | nil => right; rfl
      | cons b bs =>
          by_cases h1 : a.toNat < b.toNat
          · left; simp [lexLe, h1]
          · by_cases h2 : b.toNat < a.toNat
            · right; simp [lexLe, h2]
            · rcases ih bs with h | h
              · left; simp [lexLe, h1, h2, h]
              · right; simp [lexLe, h1, h2, h]

theorem lexLe_trans (as bs cs : List Char) :
    lexLe as bs = true → lexLe bs cs = true → lexLe as cs = true := by
  induction as generalizing bs cs with
  | nil => intro _ _; rfl
  | cons a as ih =>
      cases bs with
      | nil => intro h; simp [lexLe] at h
      | cons b bs =>
          cases cs with
          | nil => intro _ h; simp [lexLe] at h
          | cons c cs =>
              intro h1 h2
              simp only [lexLe] at h1 h2 ⊢
              by_cases hab : a.toNat < b.toNat
              · by_cases hbc : b.toNat < c.toNat
                · rw [if_pos (show a.toNat < c.toNat by omega)]
                · by_cases hcb : c.toNat < b.toNat
                  · rw [if_neg hbc, if_pos hcb] at h2
                    exact absurd h2 (by simp)
                  · rw [if_pos (show a.toNat < c.toNat by omega)]
              · by_cases hba : b.toNat < a.toNat
                · rw [if_neg hab, if_pos hba] at h1
                  exact absurd h1 (by simp)
                · by_cases hbc : b.toNat < c.toNat
                  · rw [if_pos (show a.toNat < c.toNat by omega)]
                  · by_cases hcb : c.toNat < b.toNat
                    · rw [if_neg hbc, if_pos hcb] at h2
                      exact absurd h2 (by simp)
                    · rw [if_neg hab, if_neg hba] at h1
                      rw [if_neg hbc, if_neg hcb] at h2
                      rw [if_neg (show ¬ a.toNat < c.toNat by omega),
                          if_neg (show ¬ c.toNat < a.toNat by omega)]
                      exact ih bs cs h1 h2

theorem rankLE_total (t : α → Nat) (n : α → String) (a b : α) :
    rankLE t n a b = true ∨ rankLE t n b a = true := by
  unfold rankLE
  rcases Nat.lt_trichotomy (t a) (t b) with h | h | h
  · right; simp [h]
  · rcases lexLe_total (n a).data (n b).data with hn | hn
    · left; simp [h, nameLe, hn]
    · right; simp [h, nameLe, hn]
  · left; simp [h]

theorem rankLE_trans (t : α → Nat) (n : α → String) (a b c : α) :
    rankLE t n a b = true → rankLE t n b c = true → rankLE t n a c = true := by
  unfold rankLE
  simp only [Bool.or_eq_true, Bool.and_eq_true, decide_eq_true_eq]
  rintro (h1 | ⟨h1, h1n⟩) (h2 | ⟨h2, h2n⟩)
  · left; omega
  · left; omega
  · left; omega
  · right
    refine ⟨by omega, ?_⟩
    unfold nameLe at h1n h2n ⊢
    exact lexLe_trans _ _ _ h1n h2n

theorem mapSet_of_absent (m : List AttendanceRecord) (r : AttendanceRecord)
    (h : m.any (fun x => x.id == r.id) = false) : mapSet m r = m ++ [r] := by
  unfold mapSet
  rw [h]
  simp

theorem mapSet_ids_of_present (m : List AttendanceRecord) (r : AttendanceRecord)
    (h : m.any (fun x => x.id == r.id) = true) :
    (mapSet m r).map (fun x => x.id) = m.map (fun x => x.id) := by
  have hm : mapSet m r = m.map (fun x => if x.id == r.id then r else x) := by
    unfold mapSet
    rw [h]
    simp
  rw [hm, List.map_map]
  apply List.map_congr_left
  intro x _
  by_cases hx : x.id == r.id
  · simp only [Function.comp_apply, if_pos hx]
    exact ((beq_iff_eq).mp hx).symm
  · simp only [Function.comp_apply, if_neg hx]

theorem notMem_ids_of_any_eq_false (m : List AttendanceRecord) (r : AttendanceRecord)
    (h : m.any (fun x => x.id == r.id) = false) :
    r.id ∉ m.map (fun x => x.id) := by
  intro hmem
  rcases List.mem_map.mp hmem with ⟨x, hx, hxid⟩
  have := (List.any_eq_false.mp h) x hx
  simp [hxid] at this

theorem nodup_ids_append_singleton (m : List AttendanceRecord) (r : AttendanceRecord)
    (h : (m.map (fun x => x.id)).Nodup)
    (habs : m.any (fun x => x.id == r.id) = false) :
    ((m ++ [r]).map (fun x => x.id)).Nodup := by
  have hperm : ((m ++ [r]).map (fun x => x.id)).Perm
      (r.id :: m.map (fun x => x.id)) := by
    rw [List.map_append]
    exact List.perm_append_singleton r.id (m.map (fun x => x.id))
  exact hperm.symm.nodup
    (List.nodup_cons.mpr ⟨notMem_ids_of_any_eq_false m r habs, h⟩)

theorem nodup_ids_mapSet (m : List AttendanceRecord) (r : AttendanceRecord)
    (h : (m.map (fun x => x.id)).Nodup) :
    ((mapSet m r).map (fun x => x.id)).Nodup := by
  by_cases hp : m.any (fun x => x.id == r.id) = true
  · rw [mapSet_ids_of_present m r hp]; exact h
  · rw [mapSet_of_absent m r (by simpa using hp)]
    exact nodup_ids_append_singleton m r h (by simpa using hp)

theorem foldl_mapSet_fresh :
    ∀ (c : List AttendanceRecord) (acc : List AttendanceRecord),
      (c.map (fun r => r.id)).Nodup →
      (∀ r ∈ c, ∀ x ∈ acc, ¬ x.id = r.id) →
      c.foldl mapSet acc = acc ++ c := by
  intro c
  induction c with
  | nil => intro acc _ _; simp
  | cons r c ih =>
      intro acc hnd hfresh
      have habs : acc.any (fun x => x.id == r.id) = false := by
        apply List.any_eq_false.mpr
        intro x hx
        simpa using hfresh r (List.mem_cons_self r c) x hx
      have hstep : List.foldl mapSet acc (r :: c) =
          List.foldl mapSet (acc ++ [r]) c := by
        simp [List.foldl_cons, mapSet_of_absent acc r habs]
      rw [hstep]
      rw [List.map_cons, List.nodup_cons] at hnd
      have hfresh2 : ∀ r2 ∈ c, ∀ x ∈ acc ++ [r], ¬ x.id = r2.id := by
        intro r2 hr2 x hx
        rcases List.mem_append.mp hx with hx | hx
        · exact hfresh r2 (List.mem_cons_of_mem r hr2) x hx
        · rcases List.mem_singleton.mp hx with rfl
          intro hc
          exact hnd.1 (hc ▸ List.mem_map_of_mem (fun x => x.id) hr2)
      rw [ih (acc ++ [r]) hnd.2 hfresh2, List.append_assoc, List.singleton_append]

theorem mem_mapSetIfAbsent_of_mem (m : List AttendanceRecord)
    (r x : AttendanceRecord) (h : x ∈ m) : x ∈ mapSetIfAbsent m r := by
  unfold mapSetIfAbsent
  by_cases hp : m.any (fun e => e.id == r.id) = true
  · rw [if_pos hp]; exact h
  · rw [if_neg hp]; exact List.mem_append_left _ h

theorem mem_of_mem_mapSetIfAbsent (m : List AttendanceRecord)
    (r x : AttendanceRecord) (h : x ∈ mapSetIfAbsent m r) : x ∈ m ∨ x = r := by
  unfold mapSetIfAbsent at h
  by_cases hp : m.any (fun e => e.id == r.id) = true
  · rw [if_pos hp] at h; exact Or.inl h
  · rw [if_neg hp] at h
    rcases List.mem_append.mp h with h | h
    · exact Or.inl h
    · exact Or.inr (List.mem_singleton.mp h)

theorem mem_foldl_mapSetIfAbsent_of_mem :
    ∀ (l m : List AttendanceRecord) (x : AttendanceRecord),
      x ∈ m → x ∈ l.foldl mapSetIfAbsent m := by
  intro l
  induction l with
  | nil => intro m x h; simpa using h
  | cons r l ih =>
      intro m x h
      exact ih (mapSetIfAbsent m r) x (mem_mapSetIfAbsent_of_mem m r x h)

theorem mem_foldl_mapSetIfAbsent_fresh :
    ∀ (l m : List AttendanceRecord) (r : AttendanceRecord),
      r ∈ l → (l.map (fun x => x.id)).Nodup →
      (∀ x ∈ m, ¬ x.id = r.id) →
      r ∈ l.foldl mapSetIfAbsent m := by
  intro l
  induction l with
  | nil => intro m r h; simp at h
  | cons a l ih =>
      intro m r hr hnd hfresh
      rw [List.map_cons, List.nodup_cons] at hnd
      rcases List.mem_cons.mp hr with rfl | hr
      · have habs : m.any (fun x => x.id == r.id) = false := by
          apply List.any_eq_false.mpr
          intro x hx
          simpa using hfresh x hx
        have hstep : List.foldl mapSetIfAbsent m (r :: l) =
            List.foldl mapSetIfAbsent (m ++ [r]) l := by
          simp [List.foldl_cons, mapSetIfAbsent, habs]
        rw [hstep]
        exact mem_foldl_mapSetIfAbsent_of_mem l (m ++ [r]) r
          (List.mem_append_right m (List.mem_singleton.mpr rfl))
      · refine ih (mapSetIfAbsent m a) r hr hnd.2 ?_
        intro x hx
        rcases mem_of_mem_mapSetIfAbsent m a x hx with hx2 | heq
        · exact hfresh x hx2
        · intro hc
          apply hnd.1
          have hai : a.id = r.id := by rw [← heq]; exact hc
          rw [hai]
          exact List.mem_map_of_mem (fun y => y.id) hr

theorem nodup_ids_mapSetIfAbsent (m : List AttendanceRecord) (r : AttendanceRecord)
    (h : (m.map (fun x => x.id)).Nodup) :
    ((mapSetIfAbsent m r).map (fun x => x.id)).Nodup := by
  unfold mapSetIfAbsent
  by_cases hp : m.any (fun e => e.id == r.id) = true
  · rw [if_pos hp]; exact h
  · rw [if_neg hp]
    exact nodup_ids_append_singleton m r h (by simpa using hp)

theorem nodup_ids_foldl_mapSetIfAbsent :
    ∀ (l m : List AttendanceRecord), (m.map (fun x => x.id)).Nodup →
      ((l.foldl mapSetIfAbsent m).map (fun x => x.id)).Nodup := by
  intro l
  induction l with
  | nil => intro m h; simpa using h
  | cons r l ih =>
      intro m h
      exact ih (mapSetIfAbsent m r) (nodup_ids_mapSetIfAbsent m r h)

theorem nodup_ids_foldl_mapSet :
    ∀ (c m : List AttendanceRecord), (m.map (fun x => x.id)).Nodup →
      ((c.foldl mapSet m).map (fun x => x.id)).Nodup := by
  intro c
  induction c with
  | nil => intro m h; simpa using h
  | cons r c ih =>
      intro m h
      exact ih (mapSet m r) (nodup_ids_mapSet m r h)

theorem mergeRecords_nodup_ids (cloudRecords localRecords : List AttendanceRecord) :
    ((mergeRecords cloudRecords localRecords).map (fun r => r.id)).Nodup := by
  unfold mergeRecords
  exact nodup_ids_foldl_mapSetIfAbsent localRecords _
    (nodup_ids_foldl_mapSet cloudRecords [] (by simp))

/-- Sample student used to instantiate proved properties on concrete data. -/
def stuA : Student :=
  { id := "1129", name := "ABEL", className := "IX A" }

/-- Sample record of `stuA` on 2024-01-05. -/
def recA1 : AttendanceRecord :=
  { id := "u1", studentId := "1129", studentName := "ABEL", className := "IX A",
    date := "2024-01-05", timestamp := 100, operatorName := some "Guru",
    status := some "PRESENT" }

/-- Sample record with a distinct id and student. -/
def recB1 : AttendanceRecord :=
  { id := "u2", studentId := "1132", studentName := "ADIT", className := "IX A",
    date := "2024-01-05", timestamp := 250, operatorName := some "Guru",
    status := some "PRESENT" }

/-- C7: for every remote record array and local record array, the merged
attendance list returned by `getAttendance` on a successful array fetch is
sorted descending by timestamp — every record's timestamp is greater than or
equal to the timestamp of every record after it. -/
theorem getAttendance_sorted_desc (cloudRecords : List AttendanceRecord)
    (store : Option (List AttendanceRecord)) :
    ((getAttendance (.arr cloudRecords) store).1).Pairwise
      (fun a b => b.timestamp ≤ a.timestamp) := by
  have hout : (getAttendance (.arr cloudRecords) store).1 =
      sortLe tsDesc (mergeRecords cloudRecords (store.getD [])) := rfl
  rw [hout]
  have h := pairwise_sortLe tsDesc tsDesc_total tsDesc_trans
    (mergeRecords cloudRecords (store.getD []))
  exact h.imp (fun hab => by simpa [tsDesc] using hab)

/-- C2: reconciling a remote set and a local set whose ids are each
duplicate-free: every remote record appears in the output of `getAttendance`,
every local record whose id does not occur remotely appears, and no two output
records share an id. -/
theorem getAttendance_reconciliation (cloudRecords localRecords : List AttendanceRecord)
    (hR : (cloudRecords.map (fun r => r.id)).Nodup)
    (hL : (localRecords.map (fun r => r.id)).Nodup) :
    (∀ r ∈ cloudRecords, r ∈ (getAttendance (.arr cloudRecords) (some localRecords)).1) ∧
    (∀ r ∈ localRecords, (∀ c ∈ cloudRecords, ¬ c.id = r.id) →
      r ∈ (getAttendance (.arr cloudRecords) (some localRecords)).1) ∧
    ((getAttendance (.arr cloudRecords) (some localRecords)).1.map
      (fun r => r.id)).Nodup := by
  have hout : (getAttendance (.arr cloudRecords) (some localRecords)).1 =
      sortLe tsDesc (mergeRecords cloudRecords localRecords) := rfl
  have hcloud : cloudRecords.foldl mapSet [] = cloudRecords := by
    have := foldl_mapSet_fresh cloudRecords [] hR (by intro r _ x hx; simp at hx)
    simpa using this
  refine ⟨?_, ?_, ?_⟩
  · intro r hr
    rw [hout, mem_sortLe]
    unfold mergeRecords
    rw [hcloud]
    exact mem_foldl_mapSetIfAbsent_of_mem localRecords cloudRecords r hr
  · intro r hr hfresh
    rw [hout, mem_sortLe]
    unfold mergeRecords
    rw [hcloud]
    exact mem_foldl_mapSetIfAbsent_fresh localRecords cloudRecords r hr hL hfresh
  · rw [hout]
    have hperm := (sortLe_perm tsDesc (mergeRecords cloudRecords localRecords)).map
      (fun r => r.id)
    exact hperm.symm.nodup (mergeRecords_nodup_ids cloudRecords localRecords)

/-- Instance of `getAttendance_reconciliation` on concrete data: one cloud
record and one distinct local record, both retained, with duplicate-free
output ids. -/
theorem getAttendance_reconciliation_witness :
    (∀ r ∈ [recA1], r ∈ (getAttendance (.arr [recA1]) (some [recB1])).1) ∧
    (∀ r ∈ [recB1], (∀ c ∈ [recA1], ¬ c.id = r.id) →
      r ∈ (getAttendance (.arr [recA1]) (some [recB1])).1) ∧
    ((getAttendance (.arr [recA1]) (some [recB1])).1.map (fun r => r.id)).Nodup :=
  getAttendance_reconciliation [recA1] [recB1] (by decide) (by decide)

/-- Number of cached records for a given `(studentId, date)` pair. -/
def pairCount (sid d : String) (store : Option (List AttendanceRecord)) : Nat :=
  ((store.getD []).filter (fun r => r.studentId == sid && r.date == d)).length

/-- C1: a call of `addAttendanceRecordToSheet` that finds an existing cached
record with the same `studentId` and today's date returns an unsuccessful
result and performs no write, local or remote; and any call leaves at most
one cached record for that `(studentId, today)` pair whenever the cache held
at most one before. -/
theorem addAttendance_per_day (student : Student) (operatorName status today freshId : String)
    (nowTs : Int) (store : Option (List AttendanceRecord)) :
    ((store.getD []).any (fun r => r.studentId == student.id && r.date == today) = true →
      (addAttendanceRecordToSheet student operatorName status today freshId nowTs store).1.success = false ∧
      (addAttendanceRecordToSheet student operatorName status today freshId nowTs store).2.1 = store ∧
      (addAttendanceRecordToSheet student operatorName status today freshId nowTs store).2.2 = false) ∧
    pairCount student.id today
      (addAttendanceRecordToSheet student operatorName status today freshId nowTs store).2.1 ≤
      max (pairCount student.id today store) 1 := by
  by_cases h : (store.getD []).any (fun r => r.studentId == student.id && r.date == today) = true
  · have heq : addAttendanceRecordToSheet student operatorName status today freshId nowTs store =
        ({ success := false, message := student.name ++ " sudah absen hari ini.",
           record := none }, store, false) := by
      unfold addAttendanceRecordToSheet
      rw [if_pos h]
    refine ⟨fun _ => ?_, ?_⟩
    · rw [heq]; exact ⟨rfl, rfl, rfl⟩
    · rw [heq]; exact Nat.le_max_left _ _
  · have heq : addAttendanceRecordToSheet student operatorName status today freshId nowTs store =
        ({ success := true, message := student.name ++ " berhasil ABSEN.",
           record := some { id := freshId, studentId := student.id,
                            studentName := student.name, className := student.className,
                            date := today, timestamp := nowTs,
                            operatorName := some operatorName,
                            status := some status } },
         some ({ id := freshId, studentId := student.id,
                 studentName := student.name, className := student.className,
                 date := today, timestamp := nowTs,
                 operatorName := some operatorName,
                 status := some status } :: store.getD []), true) := by
      unfold addAttendanceRecordToSheet
      rw [if_neg h]
    refine ⟨fun hcon => absurd hcon h, ?_⟩
    rw [heq]
    have hnil : (store.getD []).filter
        (fun r => r.studentId == student.id && r.date == today) = [] := by
      apply List.filter_eq_nil_iff.mpr
      intro a ha
      exact fun hp => h (List.any_eq_true.mpr ⟨a, ha, hp⟩)
    unfold pairCount
    simp only [Option.getD_some, List.filter_cons]
    rw [hnil]
    simp

/-- Instance of `addAttendance_per_day` on a cache that already holds a
record for the student on the same date: the duplicate call fails and writes
nothing, and the pair count stays at one. -/
theorem addAttendance_per_day_witness :
    ((addAttendanceRecordToSheet stuA "Guru" "PRESENT" "2024-01-05" "u9" 999 (some [recA1])).1.success = false ∧
     (addAttendanceRecordToSheet stuA "Guru" "PRESENT" "2024-01-05" "u9" 999 (some [recA1])).2.1 = some [recA1] ∧
     (addAttendanceRecordToSheet stuA "Guru" "PRESENT" "2024-01-05" "u9" 999 (some [recA1])).2.2 = false) ∧
    pairCount stuA.id "2024-01-05"
      (addAttendanceRecordToSheet stuA "Guru" "PRESENT" "2024-01-05" "u9" 999 (some [recA1])).2.1 ≤
      max (pairCount stuA.id "2024-01-05" (some [recA1])) 1 := by
  have h := addAttendance_per_day stuA "Guru" "PRESENT" "2024-01-05" "u9" 999 (some [recA1])
  exact ⟨h.1 (by decide), h.2⟩

/-- C3: when no duplicate is cached, `addAttendanceRecordToSheet` succeeds,
builds the new record from the student's data, today's date, the given
status, the fresh id and the current timestamp, prepends it to the previous
cache, and returns a success result carrying exactly that record. -/
theorem addAttendance_success (student : Student)
    (operatorName status today freshId : String) (nowTs : Int)
    (store : Option (List AttendanceRecord))
    (h : (store.getD []).any (fun r => r.studentId == student.id && r.date == today) = false) :
    (addAttendanceRecordToSheet student operatorName status today freshId nowTs store).1.success = true ∧
    (addAttendanceRecordToSheet student operatorName status today freshId nowTs store).1.record =
      some { id := freshId, studentId := student.id, studentName := student.name,
             className := student.className, date := today, timestamp := nowTs,
             operatorName := some operatorName, status := some status } ∧
    (addAttendanceRecordToSheet student operatorName status today freshId nowTs store).2.1 =
      some ({ id := freshId, studentId := student.id, studentName := student.name,
              className := student.className, date := today, timestamp := nowTs,
              operatorName := some operatorName, status := some status } :: store.getD []) ∧
    (addAttendanceRecordToSheet student operatorName status today freshId nowTs store).2.2 = true := by
  have heq : addAttendanceRecordToSheet student operatorName status today freshId nowTs store =
      ({ success := true, message := student.name ++ " berhasil ABSEN.",
         record := some { id := freshId, studentId := student.id,
                          studentName := student.name, className := student.className,
                          date := today, timestamp := nowTs,
                          operatorName := some operatorName,
                          status := some status } },
       some ({ id := freshId, studentId := student.id,
               studentName := student.name, className := student.className,
               date := today, timestamp := nowTs,
               operatorName := some operatorName,
               status := some status } :: store.getD []), true) := by
    unfold addAttendanceRecordToSheet
    rw [if_neg (by rw [h]; simp)]
  rw [heq]
  exact ⟨rfl, rfl, rfl, rfl⟩

/-- Instance of `addAttendance_success` on an empty cache. -/
theorem addAttendance_success_witness :
    (addAttendanceRecordToSheet stuA "Guru" "HAID" "2024-01-06" "u7" 500 (some [])).1.success = true ∧
    (addAttendanceRecordToSheet stuA "Guru" "HAID" "2024-01-06" "u7" 500 (some [])).1.record =
      some { id := "u7", studentId := stuA.id, studentName := stuA.name,
             className := stuA.className, date := "2024-01-06", timestamp := 500,
             operatorName := some "Guru", status := some "HAID" } ∧
    (addAttendanceRecordToSheet stuA "Guru" "HAID" "2024-01-06" "u7" 500 (some [])).2.1 =
      some ({ id := "u7", studentId := stuA.id, studentName := stuA.name,
              className := stuA.className, date := "2024-01-06", timestamp := 500,
              operatorName := some "Guru", status := some "HAID" } :: (some ([] : List AttendanceRecord)).getD []) ∧
    (addAttendanceRecordToSheet stuA "Guru" "HAID" "2024-01-06" "u7" 500 (some [])).2.2 = true :=
  addAttendance_success stuA "Guru" "HAID" "2024-01-06" "u7" 500 (some []) (by decide)

/-- C4: when the remote fetch raises or times out (or, for `getAttendance`,
yields a non-array value), `getAttendance` and `getStudents` return the local
snapshot unmodified, leave the store untouched, and surface no error. -/
theorem fetch_failure_returns_local (initialStudents localStudents : List Student)
    (localRecords : List AttendanceRecord)
    (fa : FetchOutcome AttendanceRecord) (fs : FetchOutcome Student)
    (ha : fa = FetchOutcome.failure ∨ fa = FetchOutcome.notArray)
    (hs : fs = FetchOutcome.failure) :
    getAttendance fa (some localRecords) = (localRecords, some localRecords) ∧
    getStudents initialStudents fs (some localStudents) = (localStudents, some localStudents) := by
  constructor
  · rcases ha with rfl | rfl <;> rfl
  · subst hs; rfl

/-- Instance of `fetch_failure_returns_local` on concrete snapshots. -/
theorem fetch_failure_returns_local_witness :
    getAttendance FetchOutcome.failure (some [recA1]) = ([recA1], some [recA1]) ∧
    getStudents [] FetchOutcome.failure (some [stuA]) = ([stuA], some [stuA]) :=
  fetch_failure_returns_local [] [stuA] [recA1] FetchOutcome.failure
    FetchOutcome.failure (Or.inl rfl) rfl

/-- C8: for an id not present in the cached list, `deleteAttendanceRecord`
leaves the cache unchanged and returns `true`, and `updateAttendanceStatus`
leaves the cache unchanged and returns `false`; neither raises an error. -/
theorem absent_id_noop (l : List AttendanceRecord) (id newStatus : String)
    (h : ∀ r ∈ l, ¬ r.id = id) :
    deleteAttendanceRecord id (some l) = (true, some l) ∧
    updateAttendanceStatus id newStatus (some l) = (false, some l) := by
  constructor
  · have hstep : deleteAttendanceRecord id (some l) =
        (true, some (l.filter (fun r => r.id != id))) := rfl
    have hf : l.filter (fun r => r.id != id) = l := by
      apply List.filter_eq_self.mpr
      intro a ha
      simpa using h a ha
    rw [hstep, hf]
  · have hidx : ¬ (l.findIdx (fun r => r.id == id) < l.length) := by
      rw [List.findIdx_eq_length.mpr (by intro x hx; simpa using h x hx)]
      exact lt_irrefl _
    have hstep : updateAttendanceStatus id newStatus (some l) = (false, some l) := by
      simp only [updateAttendanceStatus]
      rw [dif_neg hidx]
    rw [hstep]

/-- Instance of `absent_id_noop`: deleting and updating an id absent from a
one-record cache changes nothing. -/
theorem absent_id_noop_witness :
    deleteAttendanceRecord "zz" (some [recA1]) = (true, some [recA1]) ∧
    updateAttendanceStatus "zz" "HAID" (some [recA1]) = (false, some [recA1]) :=
  absent_id_noop [recA1] "zz" "HAID" (by decide)

/-- C9: when the cache contains a record with the given id,
`updateAttendanceStatus` returns `true` and changes only the `status` field
of the first record whose id matches: the index targeted is the first match,
every other position of the list is unchanged, the length is unchanged, and
the updated position holds the original record with every field preserved
except `status`. -/
theorem updateAttendanceStatus_frame (l : List AttendanceRecord) (id newStatus : String)
    (h : l.findIdx (fun r => r.id == id) < l.length) :
    (updateAttendanceStatus id newStatus (some l)).1 = true ∧
    (l.get ⟨l.findIdx (fun r => r.id == id), h⟩).id = id ∧
    (∀ j (hj : j < l.length), j < l.findIdx (fun r => r.id == id) →
      ¬ (l.get ⟨j, hj⟩).id = id) ∧
    (∀ l2, (updateAttendanceStatus id newStatus (some l)).2 = some l2 →
      l2.length = l.length ∧
      (∀ j, ¬ j = l.findIdx (fun r => r.id == id) → l2[j]? = l[j]?) ∧
      l2[l.findIdx (fun r => r.id == id)]? = some
        { id := (l.get ⟨l.findIdx (fun r => r.id == id), h⟩).id,
          studentId := (l.get ⟨l.findIdx (fun r => r.id == id), h⟩).studentId,
          studentName := (l.get ⟨l.findIdx (fun r => r.id == id), h⟩).studentName,
          className := (l.get ⟨l.findIdx (fun r => r.id == id), h⟩).className,
          date := (l.get ⟨l.findIdx (fun r => r.id == id), h⟩).date,
          timestamp := (l.get ⟨l.findIdx (fun r => r.id == id), h⟩).timestamp,
          operatorName := (l.get ⟨l.findIdx (fun r => r.id == id), h⟩).operatorName,
          status := some newStatus }) := by
  have hstep : updateAttendanceStatus id newStatus (some l) =
      (true, some (l.set (l.findIdx (fun r => r.id == id))
        { l.get ⟨l.findIdx (fun r => r.id == id), h⟩ with status := some newStatus })) := by
    simp only [updateAttendanceStatus]
    rw [dif_pos h]
  refine ⟨by rw [hstep], ?_, ?_, ?_⟩
  · have hp := @List.findIdx_getElem _ (fun r => r.id == id) l h
    simpa [List.get_eq_getElem] using hp
  · intro j hj hlt
    have hp := @List.not_of_lt_findIdx _ (fun r => r.id == id) l j hlt
    simpa [List.get_eq_getElem] using hp
  · intro l2 hl2
    rw [hstep] at hl2
    have hl2e : l2 = l.set (l.findIdx (fun r => r.id == id))
        { l.get ⟨l.findIdx (fun r => r.id == id), h⟩ with status := some newStatus } :=
      (Option.some.inj hl2).symm
    subst hl2e
    refine ⟨List.length_set l _ _, ?_, ?_⟩
    · intro j hj
      exact List.getElem?_set_ne (fun he => hj he.symm)
    · rw [List.getElem?_set_self h]

/-- Instance of `updateAttendanceStatus_frame`: updating the record with id
`u1` in a two-record cache succeeds and keeps the cache length. -/
theorem updateAttendanceStatus_frame_witness :
    (updateAttendanceStatus "u1" "HAID" (some [recB1, recA1])).1 = true ∧
    (∀ l2, (updateAttendanceStatus "u1" "HAID" (some [recB1, recA1])).2 = some l2 →
      l2.length = 2) := by
  have hlt : [recB1, recA1].findIdx (fun r => r.id == "u1") < [recB1, recA1].length := by
    decide
  have h := updateAttendanceStatus_frame [recB1, recA1] "u1" "HAID" hlt
  exact ⟨h.1, fun l2 hl2 => (h.2.2.2 l2 hl2).1⟩

theorem foldl_semInsertInit_fresh :
    ∀ (ss : List Student) (acc : List SemEntry),
      (ss.map (fun s => s.id)).Nodup →
      (∀ s ∈ ss, ∀ e ∈ acc, ¬ e.student.id = s.id) →
      ss.foldl semInsertInit acc =
        acc ++ ss.map (fun s => { student := s, present := 0, haid := 0, total := 0 }) := by
  intro ss
  induction ss with
  | nil => intro acc _ _; simp
  | cons s ss ih =>
      intro acc hnd hfresh
      have habs : acc.any (fun e => e.student.id == s.id) = false := by
        apply List.any_eq_false.mpr
        intro e he
        simpa using hfresh s (List.mem_cons_self s ss) e he
      have hstep : List.foldl semInsertInit acc (s :: ss) =
          List.foldl semInsertInit
            (acc ++ [{ student := s, present := 0, haid := 0, total := 0 }]) ss := by
        have : semInsertInit acc s =
            acc ++ [{ student := s, present := 0, haid := 0, total := 0 }] := by
          unfold semInsertInit
          rw [habs]
          simp
        simp [List.foldl_cons, this]
      rw [hstep]
      rw [List.map_cons, List.nodup_cons] at hnd
      have hfresh2 : ∀ t ∈ ss, ∀ e ∈
          acc ++ [{ student := s, present := 0, haid := 0, total := 0 }],
          ¬ e.student.id = t.id := by
        intro t ht e he
        rcases List.mem_append.mp he with he | he
        · exact hfresh t (List.mem_cons_of_mem s ht) e he
        · rcases List.mem_singleton.mp he with rfl
          intro hc
          apply hnd.1
          have hc2 : s.id = t.id := hc
          rw [hc2]
          exact List.mem_map_of_mem (fun t => t.id) ht
      rw [ih _ hnd.2 hfresh2, List.append_assoc, List.singleton_append, List.map_cons]

theorem foldl_semApply_eq_map :
    ∀ (records : List AttendanceRecord) (cs : List SemEntry),
      records.foldl semApply cs =
        cs.map (fun e => records.foldl (fun x r => semBump r x) e) := by
  intro records
  induction records with
  | nil => intro cs; simp
  | cons r rs ih =>
      intro cs
      have h1 : List.foldl semApply cs (r :: rs) =
          List.foldl semApply (semApply cs r) rs := rfl
      rw [h1, ih (semApply cs r)]
      unfold semApply
      rw [List.map_map]
      rfl

theorem semBump_student (r : AttendanceRecord) (e : SemEntry) :
    (semBump r e).student = e.student := by
  unfold semBump
  split
  · split <;> rfl
  · rfl

theorem semFoldEntry (records : List AttendanceRecord) :
    ∀ (e : SemEntry),
      (records.foldl (fun x r => semBump r x) e).student = e.student ∧
      (records.foldl (fun x r => semBump r x) e).present =
        e.present + records.countP
          (fun r => e.student.id == r.studentId && !(r.status == some "HAID")) ∧
      (records.foldl (fun x r => semBump r x) e).haid =
        e.haid + records.countP
          (fun r => e.student.id == r.studentId && (r.status == some "HAID")) ∧
      (e.total = e.present + e.haid →
        (records.foldl (fun x r => semBump r x) e).total =
          (records.foldl (fun x r => semBump r x) e).present +
          (records.foldl (fun x r => semBump r x) e).haid) := by
  induction records with
  | nil => intro e; simp
  | cons r rs ih =>
      intro e
      have hfold : List.foldl (fun x r => semBump r x) e (r :: rs) =
          List.foldl (fun x r => semBump r x) (semBump r e) rs := rfl
      rw [hfold]
      obtain ⟨ih1, ih2, ih3, ih4⟩ := ih (semBump r e)
      rw [semBump_student r e] at ih1 ih2 ih3
      refine ⟨ih1, ?_, ?_, ?_⟩
      · rw [ih2]
        simp only [List.countP_cons]
        by_cases hid : (e.student.id == r.studentId) = true
        · by_cases hst : (r.status == some "HAID") = true
          · have hb : (semBump r e).present = e.present := by
              unfold semBump
              rw [if_pos hid, if_pos hst]
            rw [hb, hid, hst]
            simp
          · have hst' : (r.status == some "HAID") = false := by
              simpa using hst
            have hb : (semBump r e).present = e.present + 1 := by
              unfold semBump
              rw [if_pos hid, if_neg (by rw [hst']; simp)]
            rw [hb, hid, hst']
            simp
            try omega
        · have hid' : (e.student.id == r.studentId) = false := by simpa using hid
          have hb : (semBump r e).present = e.present := by
            unfold semBump
            rw [if_neg (by rw [hid']; simp)]
          rw [hb, hid']
          simp
      · rw [ih3]
        simp only [List.countP_cons]
        by_cases hid : (e.student.id == r.studentId) = true
        · by_cases hst : (r.status == some "HAID") = true
          · have hb : (semBump r e).haid = e.haid + 1 := by
              unfold semBump
              rw [if_pos hid, if_pos hst]
            rw [hb, hid, hst]
            simp
            try omega
          · have hst' : (r.status == some "HAID") = false := by
              simpa using hst
            have hb : (semBump r e).haid = e.haid := by
              unfold semBump
              rw [if_pos hid, if_neg (by rw [hst']; simp)]
            rw [hb, hid, hst']
            simp
        · have hid' : (e.student.id == r.studentId) = false := by simpa using hid
          have hb : (semBump r e).haid = e.haid := by
            unfold semBump
            rw [if_neg (by rw [hid']; simp)]
          rw [hb, hid']
          simp
      · intro hinv
        apply ih4
        unfold semBump
        by_cases hid : (e.student.id == r.studentId) = true
        · rw [if_pos hid]
        · rw [if_neg (by rw [show (e.student.id == r.studentId) = false by simpa using hid]; simp)]
          exact hinv

theorem countP_status_split (sid : String) (records : List AttendanceRecord) :
    records.countP (fun r => sid == r.studentId && !(r.status == some "HAID")) +
    records.countP (fun r => sid == r.studentId && (r.status == some "HAID")) =
    records.countP (fun r => sid == r.studentId) := by
  induction records with
  | nil => rfl
  | cons r rs ih =>
      simp only [List.countP_cons]
      by_cases hid : (sid == r.studentId) = true
      · by_cases hst : (r.status == some "HAID") = true
        · rw [hid, hst]
          simp
          try omega
        · have hst' : (r.status == some "HAID") = false := by simpa using hst
          rw [hid, hst']
          simp
          try omega
      · have hid' : (sid == r.studentId) = false := by simpa using hid
        rw [hid']
        simp
        try omega

/-- Sample student for the monthly-history instance. -/
def stuCitra : Student :=
  { id := "1200", name := "CITRA", className := "IX B" }

/-- February records of `stuCitra`: two `PRESENT`, one `HAID`. -/
def recsFeb : List AttendanceRecord :=
  [{ id := "f1", studentId := "1200", studentName := "CITRA", className := "IX B",
     date := "2024-02-01", timestamp := 1, status := some "PRESENT" },
   { id := "f2", studentId := "1200", studentName := "CITRA", className := "IX B",
     date := "2024-02-02", timestamp := 2, status := some "PRESENT" },
   { id := "f3", studentId := "1200", studentName := "CITRA", className := "IX B",
     date := "2024-02-03", timestamp := 3, status := some "HAID" }]

/-- C6: for every target student, `monthlyStats` contains that student's
entry, whose `presentCount` is the number of the student's records in the
target month with status `PRESENT` and whose `haidCount` is the number with
status `HAID`. -/
theorem monthlyStats_counts (students : List Student) (records : List AttendanceRecord)
    (historyMonth historyFilterClass : String) (s : Student)
    (hs : s ∈ (if historyFilterClass == "ALL" then students
               else students.filter (fun t => t.className == historyFilterClass))) :
    monthlyEntryFor records historyMonth s ∈
      monthlyStats students records historyMonth historyFilterClass none ∧
    (monthlyEntryFor records historyMonth s).student = s ∧
    (monthlyEntryFor records historyMonth s).presentCount =
      ((records.filter (fun r => r.studentId == s.id && strStartsWith r.date historyMonth)).filter
        (fun r => r.status == some "PRESENT")).length ∧
    (monthlyEntryFor records historyMonth s).haidCount =
      ((records.filter (fun r => r.studentId == s.id && strStartsWith r.date historyMonth)).filter
        (fun r => r.status == some "HAID")).length := by
  refine ⟨?_, rfl, rfl, rfl⟩
  have hdef : monthlyStats students records historyMonth historyFilterClass none =
      sortLe monthlyLE ((if historyFilterClass == "ALL" then students
        else students.filter (fun t => t.className == historyFilterClass)).map
        (monthlyEntryFor records historyMonth)) := rfl
  rw [hdef, mem_sortLe]
  exact List.mem_map_of_mem _ hs

/-- Instance of `monthlyStats_counts`: two `PRESENT` and one `HAID` record
in 2024-02 give `presentCount = 2` and `haidCount = 1`. -/
theorem monthlyStats_counts_witness :
    monthlyEntryFor recsFeb "2024-02" stuCitra ∈
      monthlyStats [stuCitra] recsFeb "2024-02" "ALL" none ∧
    (monthlyEntryFor recsFeb "2024-02" stuCitra).presentCount = 2 ∧
    (monthlyEntryFor recsFeb "2024-02" stuCitra).haidCount = 1 := by
  have h := monthlyStats_counts [stuCitra] recsFeb "2024-02" "ALL" stuCitra (by decide)
  refine ⟨h.1, ?_, ?_⟩
  · rw [h.2.2.1]
    decide
  · rw [h.2.2.2]
    decide

/-- The final dictionary slot of one student after all records are folded:
the per-slot view of `semesterData`'s record loop. -/
def semEntryFor (records : List AttendanceRecord) (s : Student) : SemEntry :=
  records.foldl (fun x r => semBump r x)
    { student := s, present := 0, haid := 0, total := 0 }

theorem semesterData_eq_of_nodup (students : List Student)
    (records : List AttendanceRecord)
    (hids : (students.map (fun s => s.id)).Nodup) :
    semesterData students records =
      sortLe semLE ((students.map (semEntryFor records)).filter
        (fun e => decide (0 < e.total))) := by
  unfold semesterData
  rw [foldl_semInsertInit_fresh students [] hids (by intro s _ e he; simp at he)]
  rw [List.nil_append, foldl_semApply_eq_map, List.map_map]
  rfl

theorem semEntryFor_student (records : List AttendanceRecord) (s : Student) :
    (semEntryFor records s).student = s :=
  (semFoldEntry records _).1

theorem semEntryFor_total (records : List AttendanceRecord) (s : Student) :
    (semEntryFor records s).total =
      records.countP (fun r => s.id == r.studentId) := by
  obtain ⟨h1, h2, h3, h4⟩ :=
    semFoldEntry records ({ student := s, present := 0, haid := 0, total := 0 })
  have h5 := h4 rfl
  unfold semEntryFor
  rw [h5, h2, h3]
  simpa using countP_status_split s.id records

/-- C5: with a duplicate-free roster, `semesterData` contains exactly one
entry per student whose record count is positive, that entry's total is the
number of the student's records (presence plus excused), students with zero
records are excluded, no student id appears twice, and the output is sorted
by total descending with ties broken by name ascending. -/
theorem semesterData_spec (students : List Student) (records : List AttendanceRecord)
    (hids : (students.map (fun s => s.id)).Nodup) :
    (∀ s ∈ students, 0 < records.countP (fun r => s.id == r.studentId) →
      ∃ e ∈ semesterData students records, e.student = s ∧
        e.total = records.countP (fun r => s.id == r.studentId)) ∧
    (∀ e ∈ semesterData students records, 0 < e.total ∧ e.student ∈ students) ∧
    ((semesterData students records).map (fun e => e.student.id)).Nodup ∧
    (semesterData students records).Pairwise
      (fun a b => b.total < a.total ∨
        (b.total = a.total ∧ nameLe a.student.name b.student.name = true)) := by
  have heq := semesterData_eq_of_nodup students records hids
  refine ⟨?_, ?_, ?_, ?_⟩
  · intro s hs hpos
    refine ⟨semEntryFor records s, ?_, semEntryFor_student records s,
      semEntryFor_total records s⟩
    rw [heq, mem_sortLe]
    apply List.mem_filter.mpr
    refine ⟨List.mem_map_of_mem _ hs, ?_⟩
    rw [decide_eq_true_eq, semEntryFor_total records s]
    exact hpos
  · intro e he
    rw [heq, mem_sortLe] at he
    obtain ⟨hmem, hpos⟩ := List.mem_filter.mp he
    obtain ⟨s, hs, rfl⟩ := List.mem_map.mp hmem
    refine ⟨by simpa using hpos, ?_⟩
    rw [semEntryFor_student records s]
    exact hs
  · rw [heq]
    have hperm := (sortLe_perm semLE ((students.map (semEntryFor records)).filter
      (fun e => decide (0 < e.total)))).map (fun e => e.student.id)
    apply hperm.symm.nodup
    have hsub := List.Sublist.map (fun e : SemEntry => e.student.id)
      (List.filter_sublist (p := fun e => decide (0 < e.total))
        (students.map (semEntryFor records)))
    apply hsub.nodup
    rw [List.map_map]
    have hcomp : students.map ((fun e : SemEntry => e.student.id) ∘ semEntryFor records) =
        students.map (fun s => s.id) := by
      apply List.map_congr_left
      intro s _
      simp [Function.comp, semEntryFor_student records s]
    rw [hcomp]
    exact hids
  · rw [heq]
    have h := pairwise_sortLe semLE (rankLE_total _ _) (rankLE_trans _ _)
      ((students.map (semEntryFor records)).filter (fun e => decide (0 < e.total)))
    refine h.imp ?_
    intro a b hab
    simpa [semLE, rankLE, Bool.or_eq_true, Bool.and_eq_true, decide_eq_true_eq]
      using hab

/-- Roster for the leaderboard instance. -/
def stuAndi : Student := { id := "A", name := "ANDI", className := "IX" }

/-- Second roster entry for the leaderboard instance. -/
def stuBudi : Student := { id := "B", name := "BUDI", className := "IX" }

/-- Third roster entry (no records) for the leaderboard instance. -/
def stuCaca : Student := { id := "C", name := "CACA", className := "IX" }

/-- A presence record of student `sid` used by the leaderboard instance. -/
def semRec (i sid : String) : AttendanceRecord :=
  { id := i, studentId := sid, studentName := "", className := "IX",
    date := "2024-01-01", timestamp := 0, status := some "PRESENT" }

/-- Leaderboard instance records: three presences for A, five for B, none
for C. -/
def recsSem : List AttendanceRecord :=
  [semRec "p1" "A", semRec "p2" "A", semRec "p3" "A",
   semRec "q1" "B", semRec "q2" "B", semRec "q3" "B",
   semRec "q4" "B", semRec "q5" "B"]

/-- Instance of `semesterData_spec`: with `{A: 3, B: 5, C: 0}` the
leaderboard contains B's entry with total 5, and lists B above A with C
excluded. -/
theorem semesterData_spec_witness :
    (∃ e ∈ semesterData [stuAndi, stuBudi, stuCaca] recsSem,
      e.student = stuBudi ∧
      e.total = recsSem.countP (fun r => stuBudi.id == r.studentId)) ∧
    (semesterData [stuAndi, stuBudi, stuCaca] recsSem).map
      (fun e => e.student.name) = ["BUDI", "ANDI"] := by
  have h := semesterData_spec [stuAndi, stuBudi, stuCaca] recsSem (by decide)
  exact ⟨h.1 stuBudi (by decide) (by decide), by decide⟩

/-- C10: a record whose status is neither `PRESENT` nor `HAID` (for example
a record with no status at all) is counted as a presence by the semester
leaderboard's record step and by the range matrix's `presentCount`, but is
counted by the monthly aggregator toward neither `presentCount` nor
`haidCount`. -/
theorem offStatus_classification (r : AttendanceRecord)
    (hP : ¬ r.status = some "PRESENT") (hH : ¬ r.status = some "HAID") :
    (∀ cs : List SemEntry, semApply cs r = cs.map (fun e =>
      if e.student.id == r.studentId then
        { student := e.student, present := e.present + 1, haid := e.haid,
          total := e.present + 1 + e.haid }
      else e)) ∧
    (∀ s : Student, s.id = r.studentId →
      (matrixRowFor [r] [r.date] s).presentCount = 1 ∧
      (matrixRowFor [r] [r.date] s).haidCount = 0) ∧
    (∀ (records : List AttendanceRecord) (historyMonth : String) (s : Student),
      (monthlyEntryFor (records ++ [r]) historyMonth s).presentCount =
        (monthlyEntryFor records historyMonth s).presentCount ∧
      (monthlyEntryFor (records ++ [r]) historyMonth s).haidCount =
        (monthlyEntryFor records historyMonth s).haidCount) := by
  have hhs : (r.status == some "HAID") = false := beq_eq_false_iff_ne.mpr hH
  have hps : (r.status == some "PRESENT") = false := beq_eq_false_iff_ne.mpr hP
  refine ⟨?_, ?_, ?_⟩
  · intro cs
    unfold semApply
    apply List.map_congr_left
    intro e _
    by_cases hid : (e.student.id == r.studentId) = true
    · simp [semBump, hid, hhs]
    · have hid' : (e.student.id == r.studentId) = false := by simpa using hid
      simp [semBump, hid']
  · intro s hsid
    have hfind : List.find? (fun rr => rr.studentId == s.id && rr.date == r.date) [r] =
        some r := by
      apply List.find?_cons_of_pos
      rw [hsid]
      simp
    have hrow : matrixRowFor [r] [r.date] s =
        { student := s,
          attendanceMap := [{ date := r.date, isPresent := true, isHaid := false,
                              recordId := some r.id }],
          presentCount := 1, haidCount := 0 } := by
      unfold matrixRowFor
      simp [hsid, hH, hhs]
    exact ⟨by rw [hrow], by rw [hrow]⟩
  · intro records historyMonth s
    have hz : ∀ st : String,
        ((List.filter (fun rr => rr.studentId == s.id && strStartsWith rr.date historyMonth)
          [r]).filter (fun rr => rr.status == some st)).length = 0 ∨
        ((List.filter (fun rr => rr.studentId == s.id && strStartsWith rr.date historyMonth)
          [r]).filter (fun rr => rr.status == some st)).length =
          (if (r.status == some st) = true then 1 else 0) := by
      intro st
      by_cases hpm : (r.studentId == s.id && strStartsWith r.date historyMonth) = true
      · right
        simp only [List.filter_cons, List.filter_nil, hpm, if_true]
        split_ifs with h1 <;> simp [h1]
      · left
        have hpm' : (r.studentId == s.id && strStartsWith r.date historyMonth) = false := by
          simpa using hpm
        simp [List.filter_cons, List.filter_nil, hpm']
    constructor
    · unfold monthlyEntryFor
      simp only [List.filter_append, List.length_append]
      rcases hz "PRESENT" with h0 | h0
      · rw [h0]
        simp
      · rw [h0, hps]
        simp
    · unfold monthlyEntryFor
      simp only [List.filter_append, List.length_append]
      rcases hz "HAID" with h0 | h0
      · rw [h0]
        simp
      · rw [h0, hhs]
        simp

/-- Record with no status field, for the classification instance. -/
def recNoStatus : AttendanceRecord :=
  { id := "n1", studentId := "A", studentName := "", className := "IX",
    date := "2024-03-04", timestamp := 7, status := none }

/-- Instance of `offStatus_classification` on a status-less record: the
semester step counts it as a presence, the range matrix counts it as a
presence, and the monthly aggregator counts it toward neither field. -/
theorem offStatus_classification_witness :
    semApply [{ student := stuAndi, present := 0, haid := 0, total := 0 }] recNoStatus =
      [{ student := stuAndi, present := 1, haid := 0, total := 1 }] ∧
    (matrixRowFor [recNoStatus] [recNoStatus.date] stuAndi).presentCount = 1 ∧
    (matrixRowFor [recNoStatus] [recNoStatus.date] stuAndi).haidCount = 0 ∧
    (monthlyEntryFor ([] ++ [recNoStatus]) "2024-03" stuAndi).presentCount =
      (monthlyEntryFor [] "2024-03" stuAndi).presentCount ∧
    (monthlyEntryFor ([] ++ [recNoStatus]) "2024-03" stuAndi).haidCount =
      (monthlyEntryFor [] "2024-03" stuAndi).haidCount := by
  have h := offStatus_classification recNoStatus (by decide) (by decide)
  refine ⟨?_, (h.2.1 stuAndi rfl).1, (h.2.1 stuAndi rfl).2,
    (h.2.2 [] "2024-03" stuAndi).1, (h.2.2 [] "2024-03" stuAndi).2⟩
  exact (h.1 _).trans (by decide)
